import Mathlib

/-!
Shallow embedding of the FLAC metadata decoding engine (package `flac`,
file `flac.go`): the byte reader, the block-header decoder, the
STREAMINFO (structural block) decoder, the block dispatch loop, and the
`Metadata` accessors (`StreamInfo`, `Length`, `Bitrate`).

Conventions of the embedding:
  * A byte source is a `List Nat`, each element one byte (value `< 256`;
    theorems that need this bound state it as a hypothesis `isBytes`).
  * Fallible reads return `Except Err (α × List Nat)`: the decoded value
    together with the remaining, not-yet-consumed bytes.
  * Go runtime faults reachable from the accessors (nil-pointer
    dereference, integer division by zero) are made explicit as values of
    `GoPanic`, so that accessors return `Except GoPanic Int`.
  * Go's signed 64-bit arithmetic is `Int` arithmetic wrapped with
    `wrap64`; Go's integer division truncates toward zero, which is
    `Int.tdiv`.
-/

deriving instance DecidableEq for Except

/-- Error kind of the decoder: `unexpectedEOF` models `ErrUnexpectedEOF`
("unexpected EOF") and `invalidStream` models `ErrInvalidStream`
("stream is invalid"). -/
inductive Err where
  | unexpectedEOF
  | invalidStream
deriving DecidableEq, Repr

/-- Runtime faults of the Go accessors made explicit: dereferencing a nil
`*StreamInfo`, and integer division by zero. -/
inductive GoPanic where
  | nilDeref
  | divideByZero
deriving DecidableEq, Repr

/-- Modelled from the spec: the Byte Reader primitive
`readExact(source, n) -> bytes[n] | Error(UnexpectedEnd)` (spec section 4.1).
The function `readBytes` itself is not part of the given source files; only
its callers and the tests of the sibling helpers `readUint16`/`readUint24`
are. It must "read exactly n bytes or fail - never returns a short read
silently". -/
def readBytes (s : List Nat) (n : Nat) : Except Err (List Nat × List Nat) :=
  if n ≤ s.length then .ok (s.take n, s.drop n) else .error .unexpectedEOF

/-- Modelled from the spec: `readString(source, n)` decodes the same bytes as
text (spec section 4.1); here a string is kept as its list of byte values. -/
def readString (s : List Nat) (n : Nat) : Except Err (List Nat × List Nat) :=
  readBytes s n

/-- Big-endian value of a byte list (most significant byte first). -/
def beVal (l : List Nat) : Nat :=
  l.foldl (fun a b => a * 256 + b) 0

/-- Modelled from the spec: the fixed-width readers assemble `n` bytes in
big-endian order ("big-endian throughout", spec section 6); the repository's
tests for `readUint16`/`readUint24` pin this byte order. -/
def readUintBE (s : List Nat) (n : Nat) : Except Err (Nat × List Nat) :=
  match readBytes s n with
  | .ok (bs, rest) => .ok (beVal bs, rest)
  | .error e => .error e

/-- Modelled from the spec: `readUint32` reads 4 bytes big-endian. -/
def readUint32 (s : List Nat) : Except Err (Nat × List Nat) := readUintBE s 4

/-- Modelled from the spec: `readUint48` reads 6 bytes big-endian. -/
def readUint48 (s : List Nat) : Except Err (Nat × List Nat) := readUintBE s 6

/-- Modelled from the spec: `readUint64` reads 8 bytes big-endian. -/
def readUint64 (s : List Nat) : Except Err (Nat × List Nat) := readUintBE s 8

/-- Byte-source well-formedness: every element is a byte value. -/
def isBytes (s : List Nat) : Prop := ∀ x ∈ s, x < 256

instance (s : List Nat) : Decidable (isBytes s) := by
  unfold isBytes; infer_instance

/-- The byte values of the stream signature `"fLaC"`. -/
def fLaC : List Nat := [0x66, 0x4C, 0x61, 0x43]

/-- Embeds `readStreamMarker` (flac.go lines 34-43): read 4 bytes as a
string and compare with the literal signature. -/
def readStreamMarker (s : List Nat) : Except Err (Unit × List Nat) :=
  match readString s 4 with
  | .error e => .error e
  | .ok (str, rest) =>
      if str ≠ fLaC then .error .invalidStream
      else .ok ((), rest)

namespace blockHeader

/-- Embeds `blockHeader.IsLast` (flac.go line 155): `h & 0x80000000 != 0`. -/
def IsLast (h : Nat) : Bool := h &&& 0x80000000 != 0

/-- Embeds `blockHeader.Type` (flac.go line 156): `(h >> 24) & 0x7F`. -/
def btype (h : Nat) : Nat := (h >>> 24) &&& 0x7F

/-- Embeds `blockHeader.Length` (flac.go line 157): `h & 0x00FFFFFF`. -/
def length (h : Nat) : Nat := h &&& 0x00FFFFFF

end blockHeader

/-- Embeds `readBlockHeader` (flac.go lines 135-138): reads 4 bytes as a
big-endian 32-bit header value. -/
def readBlockHeader (s : List Nat) : Except Err (Nat × List Nat) :=
  readUint32 s

/-- Embeds the `StreamInfo` struct (flac.go lines 202-237). Machine-width
fields become `Nat` (their width bounds hold for every value the decoder
produces from byte input). -/
structure StreamInfo where
  MinBlockSize : Nat
  MaxBlockSize : Nat
  MinFrameSize : Nat
  MaxFrameSize : Nat
  SampleRate : Nat
  NumChannels : Nat
  BitsPerSample : Nat
  TotalSamples : Nat
  MD5Sum : List Nat
deriving DecidableEq, Repr

/-- Embeds `readStreamInfoBlock` (flac.go lines 164-200). The block-header
argument is ignored exactly as in the source (`_ blockHeader`); the masks
`&&& 0xFFFF` / `&&& 0xFFFFFFFF` written here render Go's `uint16`/`uint32`
conversions. -/
def readStreamInfoBlock (s : List Nat) (_h : Nat) :
    Except Err (StreamInfo × List Nat) :=
  match readUint32 s with
  | .error e => .error e
  | .ok (p, s1) =>
    match readUint48 s1 with
    | .error e => .error e
    | .ok (x, s2) =>
      match readUint64 s2 with
      | .error e => .error e
      | .ok (y, s3) =>
        match readBytes s3 16 with
        | .error e => .error e
        | .ok (md5, s4) =>
            .ok ({ MinBlockSize := (p >>> 16) &&& 0xFFFF
                   MaxBlockSize := p &&& 0xFFFF
                   MinFrameSize := (x >>> 24) &&& 0xFFFFFFFF
                   MaxFrameSize := x &&& 0xFFFFFF
                   SampleRate := (y >>> 44) &&& 0xFFFFFFFF
                   NumChannels := (y >>> 41) &&& 0x07
                   BitsPerSample := (y >>> 36) &&& 0x1F
                   TotalSamples := y &&& 0x0FFFFFFFFF
                   MD5Sum := md5 }, s4)

/-- Embeds `readPaddingBlock` (flac.go lines 249-252): discard-read of the
header's declared payload length. -/
def readPaddingBlock (s : List Nat) (h : Nat) : Except Err (Unit × List Nat) :=
  match readBytes s (blockHeader.length h) with
  | .ok (_, rest) => .ok ((), rest)
  | .error e => .error e

/-- Embeds `readApplicationBlock` (flac.go lines 258-262): unimplemented,
discard-read. -/
def readApplicationBlock (s : List Nat) (h : Nat) : Except Err (Unit × List Nat) :=
  match readBytes s (blockHeader.length h) with
  | .ok (_, rest) => .ok ((), rest)
  | .error e => .error e

/-- Embeds `readSeekTableBlock` (flac.go lines 268-272): unimplemented,
discard-read. -/
def readSeekTableBlock (s : List Nat) (h : Nat) : Except Err (Unit × List Nat) :=
  match readBytes s (blockHeader.length h) with
  | .ok (_, rest) => .ok ((), rest)
  | .error e => .error e

/-- Embeds `readVorbisCommentBlock` (flac.go lines 322-326): unimplemented,
discard-read; always returns the nil map, rendered as `none`. -/
def readVorbisCommentBlock (s : List Nat) (h : Nat) :
    Except Err (Option Unit × List Nat) :=
  match readBytes s (blockHeader.length h) with
  | .ok (_, rest) => .ok (none, rest)
  | .error e => .error e

/-- Embeds `readCuesheetBlock` (flac.go lines 332-336): unimplemented,
discard-read. -/
def readCuesheetBlock (s : List Nat) (h : Nat) : Except Err (Unit × List Nat) :=
  match readBytes s (blockHeader.length h) with
  | .ok (_, rest) => .ok ((), rest)
  | .error e => .error e

/-- Embeds `readPictureBlock` (flac.go lines 342-346): unimplemented,
discard-read. -/
def readPictureBlock (s : List Nat) (h : Nat) : Except Err (Unit × List Nat) :=
  match readBytes s (blockHeader.length h) with
  | .ok (_, rest) => .ok ((), rest)
  | .error e => .error e

/-- Embeds the `Metadata` struct (flac.go lines 112-116). `bytes` is Go's
`int64` accumulator; `raw` is the `map[string][]string` field, which the
stubbed vorbis-comment decoder only ever sets to nil (`none`). -/
structure Metadata where
  bytes : Int
  info : Option StreamInfo
  raw : Option Unit
deriving DecidableEq, Repr

/-- Embeds the body of the `switch h.Type()` dispatch (flac.go lines 61-102),
acting on the metadata under construction and the remaining bytes. In the
`default` arm the source calls `readPaddingBlock(r, h)` and DISCARDS its
error (flac.go line 101); on such a failed exact read the underlying reader
has consumed every remaining byte, so the model continues with
`s.drop (blockHeader.length h)` (the empty list in the failure case). -/
def dispatchBlock (s : List Nat) (h : Nat) (m : Metadata) :
    Except Err (Metadata × List Nat) :=
  match blockHeader.btype h with
  | 0 =>
    match readStreamInfoBlock s h with
    | .ok (si, rest) => .ok ({ m with info := some si }, rest)
    | .error e => .error e
  | 1 =>
    match readPaddingBlock s h with
    | .ok (_, rest) => .ok (m, rest)
    | .error e => .error e
  | 2 =>
    match readApplicationBlock s h with
    | .ok (_, rest) => .ok (m, rest)
    | .error e => .error e
  | 3 =>
    match readSeekTableBlock s h with
    | .ok (_, rest) => .ok (m, rest)
    | .error e => .error e
  | 4 =>
    match readVorbisCommentBlock s h with
    | .ok (raw, rest) => .ok ({ m with raw := raw }, rest)
    | .error e => .error e
  | 5 =>
    match readCuesheetBlock s h with
    | .ok (_, rest) => .ok (m, rest)
    | .error e => .error e
  | 6 =>
    match readPictureBlock s h with
    | .ok (_, rest) => .ok (m, rest)
    | .error e => .error e
  | 127 => .error .invalidStream
  | _ =>
    match readPaddingBlock s h with
    | .ok (_, rest) => .ok (m, rest)
    | .error _ => .ok (m, s.drop (blockHeader.length h))

/-- Embeds the `for` loop of `readMetadata` (flac.go lines 54-107). The
`fuel` argument only bounds the recursion; every iteration consumes at least
the 4 header bytes, so with starting fuel `s.length + 1` the fuel can never
run out before a read fails. -/
def readMetadataLoop : Nat → Metadata → List Nat → Except Err (Metadata × List Nat)
  | 0, _, _ => .error .unexpectedEOF
  | fuel + 1, m, s =>
    match readBlockHeader s with
    | .error e => .error e
    | .ok (h, s1) =>
      let m1 : Metadata := { m with bytes := m.bytes + (blockHeader.length h : Int) + 4 }
      match dispatchBlock s1 h m1 with
      | .error e => .error e
      | .ok (m2, s2) =>
          if blockHeader.IsLast h then .ok (m2, s2)
          else readMetadataLoop fuel m2 s2

/-- Embeds `readMetadata` (flac.go lines 49-110): start from
`Metadata{bytes: 4}` and run the dispatch loop. -/
def readMetadata (s : List Nat) : Except Err (Metadata × List Nat) :=
  readMetadataLoop (s.length + 1) { bytes := 4, info := none, raw := none } s

/-- Embeds `ReadMetadata` (flac.go lines 24-30): validate the stream marker,
then decode the block sequence. -/
def ReadMetadata (s : List Nat) : Except Err (Metadata × List Nat) :=
  match readStreamMarker s with
  | .error e => .error e
  | .ok (_, rest) => readMetadata rest

/-- Two's-complement wrap of an integer into the signed 64-bit range,
modelling Go's `int64` overflow behaviour. -/
def wrap64 (z : Int) : Int := (z + 2 ^ 63) % 2 ^ 64 - 2 ^ 63

/-- Embeds `StreamInfo.Duration` (flac.go lines 241-243):
`time.Duration(si.TotalSamples) * time.Second / time.Duration(si.SampleRate)`
in `int64` nanoseconds. When `SampleRate` is zero the Go expression raises a
runtime integer-division-by-zero panic, rendered as `.error .divideByZero`. -/
def StreamInfo.Duration (si : StreamInfo) : Except GoPanic Int :=
  if si.SampleRate = 0 then .error .divideByZero
  else .ok (Int.tdiv (wrap64 (wrap64 (si.TotalSamples : Int) * 1000000000))
                     (si.SampleRate : Int))

namespace Metadata

/-- Embeds `Metadata.StreamInfo` (flac.go line 118): returns the possibly-nil
structural block pointer. -/
def StreamInfo (m : Metadata) : Option StreamInfo := m.info

/-- Embeds `Metadata.Length` (flac.go line 120): `m.info.Duration()`. When
`info` is nil the Go call dereferences a nil pointer, rendered as
`.error .nilDeref`. -/
def Length (m : Metadata) : Except GoPanic Int :=
  match m.info with
  | none => .error .nilDeref
  | some si => si.Duration

/-- Embeds `Metadata.Bitrate` (flac.go lines 122-130):
`z := filesize - m.bytes`, `kbps := z / int64(d*1000/time.Second)`, `-1` when
`kbps <= 0`. The divisor is the duration in whole milliseconds; dividing by a
zero millisecond count is a Go runtime panic, rendered as
`.error .divideByZero`. -/
def Bitrate (m : Metadata) (filesize : Int) : Except GoPanic Int :=
  let z := wrap64 (filesize - m.bytes)
  match m.Length with
  | .error e => .error e
  | .ok d =>
      let ms := Int.tdiv (wrap64 (d * 1000)) 1000000000
      if ms = 0 then .error .divideByZero
      else
        let kbps := Int.tdiv z ms
        if kbps ≤ 0 then .ok (-1) else .ok kbps

end Metadata

/-- The four header bytes (big-endian) of a block header carrying
continuation flag `last`, type code `t` and payload length `L`. -/
def mkHeader (last : Bool) (t L : Nat) : List Nat :=
  [(if last then 128 else 0) + t, L / 65536 % 256, L / 256 % 256, L % 256]

/-- Ghost instrumentation of `readMetadataLoop`: it returns, in addition, one
pair per processed block, in order: the decoded header value and the number
of payload bytes actually consumed by the block's dispatch. It exists only
to state accounting invariants; `readMetadataLoop_toTr` relates it to the
real loop. -/
def readMetadataLoopTr : Nat → Metadata → List Nat →
    Except Err (Metadata × List Nat × List (Nat × Nat))
  | 0, _, _ => .error .unexpectedEOF
  | fuel + 1, m, s =>
    match readBlockHeader s with
    | .error e => .error e
    | .ok (h, s1) =>
      let m1 : Metadata := { m with bytes := m.bytes + (blockHeader.length h : Int) + 4 }
      match dispatchBlock s1 h m1 with
      | .error e => .error e
      | .ok (m2, s2) =>
          if blockHeader.IsLast h then .ok (m2, s2, [(h, s1.length - s2.length)])
          else
            match readMetadataLoopTr fuel m2 s2 with
            | .error e => .error e
            | .ok (m3, s3, tr) => .ok (m3, s3, (h, s1.length - s2.length) :: tr)

/-! ### Reader inversion lemmas -/

theorem readBytes_ok {s : List Nat} {n : Nat} (h : n ≤ s.length) :
    readBytes s n = .ok (s.take n, s.drop n) := by
  unfold readBytes; rw [if_pos h]

theorem readBytes_err {s : List Nat} {n : Nat} (h : s.length < n) :
    readBytes s n = .error .unexpectedEOF := by
  unfold readBytes; rw [if_neg (by omega)]

theorem readUintBE_ok {s : List Nat} {n : Nat} (h : n ≤ s.length) :
    readUintBE s n = .ok (beVal (s.take n), s.drop n) := by
  unfold readUintBE; rw [readBytes_ok h]

theorem readUint32_ok {s : List Nat} (h : 4 ≤ s.length) :
    readUint32 s = .ok (beVal (s.take 4), s.drop 4) := by
  unfold readUint32; exact readUintBE_ok h

theorem readUint32_err {s : List Nat} (h : s.length < 4) :
    readUint32 s = .error .unexpectedEOF := by
  unfold readUint32 readUintBE; rw [readBytes_err h]

theorem readUint48_ok {s : List Nat} (h : 6 ≤ s.length) :
    readUint48 s = .ok (beVal (s.take 6), s.drop 6) := by
  unfold readUint48; exact readUintBE_ok h

theorem readUint48_err {s : List Nat} (h : s.length < 6) :
    readUint48 s = .error .unexpectedEOF := by
  unfold readUint48 readUintBE; rw [readBytes_err h]

theorem readUint64_ok {s : List Nat} (h : 8 ≤ s.length) :
    readUint64 s = .ok (beVal (s.take 8), s.drop 8) := by
  unfold readUint64; exact readUintBE_ok h

theorem readUint64_err {s : List Nat} (h : s.length < 8) :
    readUint64 s = .error .unexpectedEOF := by
  unfold readUint64 readUintBE; rw [readBytes_err h]

theorem readUintBE_inv {s rest : List Nat} {n v : Nat}
    (h : readUintBE s n = .ok (v, rest)) :
    n ≤ s.length ∧ v = beVal (s.take n) ∧ rest = s.drop n := by
  by_cases hn : n ≤ s.length
  · rw [readUintBE_ok hn] at h
    refine ⟨hn, ?_, ?_⟩ <;> simp_all
  · unfold readUintBE at h
    rw [readBytes_err (by omega)] at h
    cases h

theorem readPaddingBlock_inv {s rest : List Nat} {hh : Nat} {u : Unit}
    (h : readPaddingBlock s hh = .ok (u, rest)) :
    blockHeader.length hh ≤ s.length ∧ rest = s.drop (blockHeader.length hh) := by
  by_cases hn : blockHeader.length hh ≤ s.length
  · unfold readPaddingBlock at h
    rw [readBytes_ok hn] at h
    simp_all
  · unfold readPaddingBlock at h
    rw [readBytes_err (by omega)] at h
    cases h

theorem readApplicationBlock_inv {s rest : List Nat} {hh : Nat} {u : Unit}
    (h : readApplicationBlock s hh = .ok (u, rest)) :
    blockHeader.length hh ≤ s.length ∧ rest = s.drop (blockHeader.length hh) := by
  by_cases hn : blockHeader.length hh ≤ s.length
  · unfold readApplicationBlock at h
    rw [readBytes_ok hn] at h
    simp_all
  · unfold readApplicationBlock at h
    rw [readBytes_err (by omega)] at h
    cases h

theorem readSeekTableBlock_inv {s rest : List Nat} {hh : Nat} {u : Unit}
    (h : readSeekTableBlock s hh = .ok (u, rest)) :
    blockHeader.length hh ≤ s.length ∧ rest = s.drop (blockHeader.length hh) := by
  by_cases hn : blockHeader.length hh ≤ s.length
  · unfold readSeekTableBlock at h
    rw [readBytes_ok hn] at h
    simp_all
  · unfold readSeekTableBlock at h
    rw [readBytes_err (by omega)] at h
    cases h

theorem readVorbisCommentBlock_inv {s rest : List Nat} {hh : Nat} {u : Option Unit}
    (h : readVorbisCommentBlock s hh = .ok (u, rest)) :
    blockHeader.length hh ≤ s.length ∧ rest = s.drop (blockHeader.length hh) := by
  by_cases hn : blockHeader.length hh ≤ s.length
  · unfold readVorbisCommentBlock at h
    rw [readBytes_ok hn] at h
    simp_all
  · unfold readVorbisCommentBlock at h
    rw [readBytes_err (by omega)] at h
    cases h

theorem readCuesheetBlock_inv {s rest : List Nat} {hh : Nat} {u : Unit}
    (h : readCuesheetBlock s hh = .ok (u, rest)) :
    blockHeader.length hh ≤ s.length ∧ rest = s.drop (blockHeader.length hh) := by
  by_cases hn : blockHeader.length hh ≤ s.length
  · unfold readCuesheetBlock at h
    rw [readBytes_ok hn] at h
    simp_all
  · unfold readCuesheetBlock at h
    rw [readBytes_err (by omega)] at h
    cases h

theorem readPictureBlock_inv {s rest : List Nat} {hh : Nat} {u : Unit}
    (h : readPictureBlock s hh = .ok (u, rest)) :
    blockHeader.length hh ≤ s.length ∧ rest = s.drop (blockHeader.length hh) := by
  by_cases hn : blockHeader.length hh ≤ s.length
  · unfold readPictureBlock at h
    rw [readBytes_ok hn] at h
    simp_all
  · unfold readPictureBlock at h
    rw [readBytes_err (by omega)] at h
    cases h

/-- The structural-block decoder fully evaluated on a source holding at
least 34 bytes: it succeeds and consumes exactly 34 bytes, whatever the
block header declares. -/
theorem readStreamInfoBlock_eq {s : List Nat} (hlen : 34 ≤ s.length) (h : Nat) :
    readStreamInfoBlock s h =
      .ok ({ MinBlockSize := (beVal (s.take 4) >>> 16) &&& 0xFFFF
             MaxBlockSize := beVal (s.take 4) &&& 0xFFFF
             MinFrameSize := (beVal ((s.drop 4).take 6) >>> 24) &&& 0xFFFFFFFF
             MaxFrameSize := beVal ((s.drop 4).take 6) &&& 0xFFFFFF
             SampleRate := (beVal ((s.drop 10).take 8) >>> 44) &&& 0xFFFFFFFF
             NumChannels := (beVal ((s.drop 10).take 8) >>> 41) &&& 0x07
             BitsPerSample := (beVal ((s.drop 10).take 8) >>> 36) &&& 0x1F
             TotalSamples := beVal ((s.drop 10).take 8) &&& 0x0FFFFFFFFF
             MD5Sum := (s.drop 18).take 16 }, s.drop 34) := by
  unfold readStreamInfoBlock
  rw [readUint32_ok (by omega)]
  dsimp only
  rw [readUint48_ok (by simp; omega)]
  dsimp only
  rw [List.drop_drop]
  rw [readUint64_ok (by simp; omega)]
  dsimp only
  rw [List.drop_drop]
  rw [readBytes_ok (by simp; omega)]
  dsimp only
  rw [List.drop_drop]

theorem readStreamInfoBlock_inv {s rest : List Nat} {hh : Nat} {si : StreamInfo}
    (h : readStreamInfoBlock s hh = .ok (si, rest)) :
    34 ≤ s.length ∧ rest = s.drop 34 := by
  by_cases hlen : 34 ≤ s.length
  · rw [readStreamInfoBlock_eq hlen] at h
    simp_all
  · refine absurd h ?_
    unfold readStreamInfoBlock
    by_cases h4 : 4 ≤ s.length
    · rw [readUint32_ok h4]
      dsimp only
      by_cases h6 : 6 ≤ (s.drop 4).length
      · rw [readUint48_ok h6]
        dsimp only
        rw [List.drop_drop]
        simp only [show (4 : Nat) + 6 = 10 from rfl]
        by_cases h8 : 8 ≤ (s.drop 10).length
        · rw [readUint64_ok h8]
          dsimp only
          rw [List.drop_drop]
          simp only [show (10 : Nat) + 8 = 18 from rfl]
          have : (s.drop 18).length < 16 := by simp at h6 h8 ⊢; omega
          rw [readBytes_err this]
          simp
        · rw [readUint64_err (by omega)]
          simp
      · rw [readUint48_err (by omega)]
        simp
    · rw [readUint32_err (by omega)]
      simp

/-- Dispatching one block never touches the running byte accumulator and
never grows the remaining source. -/
theorem dispatchBlock_inv {s s2 : List Nat} {h : Nat} {m m2 : Metadata}
    (hd : dispatchBlock s h m = .ok (m2, s2)) :
    m2.bytes = m.bytes ∧ s2.length ≤ s.length := by
  unfold dispatchBlock at hd
  split at hd
  all_goals try (split at hd)
  all_goals try (exact Except.noConfusion hd)
  all_goals injection hd with hd1
  all_goals injection hd1 with hA hB
  all_goals subst hA
  all_goals subst hB
  · rename_i heq
    obtain ⟨hl, hr⟩ := readStreamInfoBlock_inv heq
    subst hr
    exact ⟨rfl, by simp⟩
  · rename_i heq
    obtain ⟨hl, hr⟩ := readPaddingBlock_inv heq
    subst hr
    exact ⟨rfl, by simp⟩
  · rename_i heq
    obtain ⟨hl, hr⟩ := readApplicationBlock_inv heq
    subst hr
    exact ⟨rfl, by simp⟩
  · rename_i heq
    obtain ⟨hl, hr⟩ := readSeekTableBlock_inv heq
    subst hr
    exact ⟨rfl, by simp⟩
  · rename_i heq
    obtain ⟨hl, hr⟩ := readVorbisCommentBlock_inv heq
    subst hr
    exact ⟨rfl, by simp⟩
  · rename_i heq
    obtain ⟨hl, hr⟩ := readCuesheetBlock_inv heq
    subst hr
    exact ⟨rfl, by simp⟩
  · rename_i heq
    obtain ⟨hl, hr⟩ := readPictureBlock_inv heq
    subst hr
    exact ⟨rfl, by simp⟩
  · rename_i heq
    obtain ⟨hl, hr⟩ := readPaddingBlock_inv heq
    subst hr
    exact ⟨rfl, by simp⟩
  · exact ⟨rfl, by simp⟩

/-! ### Bitwise-to-arithmetic bridges -/

theorem land_mask (n k msk : Nat) (hm : msk = 2 ^ k - 1) : n &&& msk = n % 2 ^ k := by
  subst hm; exact Nat.and_pow_two_sub_one_eq_mod n k

theorem shiftr_div (n k : Nat) : n >>> k = n / 2 ^ k :=
  Nat.shiftRight_eq_div_pow n k

/-- The continuation flag test, read arithmetically: bit 31 of the header. -/
theorem IsLast_arith (h : Nat) :
    blockHeader.IsLast h = decide (h / 2 ^ 31 % 2 = 1) := by
  unfold blockHeader.IsLast
  rw [show (0x80000000 : Nat) = 2 ^ 31 from rfl, Nat.and_two_pow,
      Nat.testBit_to_div_mod]
  by_cases hc : h / 2147483648 % 2 = 1 <;>
    simp [hc, show (2 : Nat) ^ 31 = 2147483648 from by norm_num]

theorem beVal_aux (l : List Nat) : ∀ a : Nat, (∀ x ∈ l, x < 256) →
    l.foldl (fun a b => a * 256 + b) a < (a + 1) * 256 ^ l.length := by
  induction l with
  | nil => intro a _; simp
  | cons b t ih =>
    intro a hb
    have hb' : b < 256 := hb b (by simp)
    have ht : ∀ x ∈ t, x < 256 := fun x hx => hb x (by simp [hx])
    calc (b :: t).foldl (fun a b => a * 256 + b) a
        = t.foldl (fun a b => a * 256 + b) (a * 256 + b) := rfl
      _ < (a * 256 + b + 1) * 256 ^ t.length := ih (a * 256 + b) ht
      _ ≤ ((a + 1) * 256) * 256 ^ t.length :=
          Nat.mul_le_mul_right _ (by omega)
      _ = (a + 1) * 256 ^ (b :: t).length := by
          rw [List.length_cons, pow_succ]; ring

theorem beVal_lt {l : List Nat} (h : isBytes l) : beVal l < 256 ^ l.length := by
  have := beVal_aux l 0 h
  simpa [beVal] using this

theorem beVal_mkHeader (last : Bool) (t L : Nat) (hL : L < 2 ^ 24) :
    beVal (mkHeader last t L) = ((if last then 128 else 0) + t) * 2 ^ 24 + L := by
  unfold beVal mkHeader
  simp only [List.foldl]
  cases last <;> simp <;> omega

theorem mkHeader_btype (last : Bool) (t L : Nat) (ht : t < 128) (hL : L < 2 ^ 24) :
    blockHeader.btype (beVal (mkHeader last t L)) = t := by
  rw [beVal_mkHeader last t L hL]
  unfold blockHeader.btype
  rw [shiftr_div, land_mask _ 7 _ (by norm_num)]
  cases last <;> simp <;> omega

theorem mkHeader_length (last : Bool) (t L : Nat) (_ht : t < 128) (hL : L < 2 ^ 24) :
    blockHeader.length (beVal (mkHeader last t L)) = L := by
  rw [beVal_mkHeader last t L hL]
  unfold blockHeader.length
  rw [land_mask _ 24 _ (by norm_num)]
  cases last <;> simp <;> omega

theorem mkHeader_IsLast (last : Bool) (t L : Nat) (ht : t < 128) (hL : L < 2 ^ 24) :
    blockHeader.IsLast (beVal (mkHeader last t L)) = last := by
  rw [beVal_mkHeader last t L hL, IsLast_arith]
  cases last <;> simp <;> omega

theorem mkHeader_isBytes (last : Bool) (t L : Nat) (ht : t < 128) :
    isBytes (mkHeader last t L) := by
  unfold isBytes mkHeader
  intro x hx
  cases last <;> simp at hx <;> rcases hx with h | h | h | h <;> omega

/-! ### Stream marker lemmas -/

theorem readStreamMarker_ok {s : List Nat} (h4 : 4 ≤ s.length)
    (hm : s.take 4 = fLaC) : readStreamMarker s = .ok ((), s.drop 4) := by
  unfold readStreamMarker readString
  rw [readBytes_ok h4]
  simp [hm]

theorem readStreamMarker_badsig {s : List Nat} (h4 : 4 ≤ s.length)
    (hm : s.take 4 ≠ fLaC) : readStreamMarker s = .error .invalidStream := by
  unfold readStreamMarker readString
  rw [readBytes_ok h4]
  simp [hm]

theorem readStreamMarker_short {s : List Nat} (h4 : s.length < 4) :
    readStreamMarker s = .error .unexpectedEOF := by
  unfold readStreamMarker readString
  rw [readBytes_err h4]

theorem readStreamMarker_inv {s rest : List Nat}
    (h : readStreamMarker s = .ok ((), rest)) :
    4 ≤ s.length ∧ s.take 4 = fLaC ∧ rest = s.drop 4 := by
  by_cases h4 : 4 ≤ s.length
  · by_cases hm : s.take 4 = fLaC
    · rw [readStreamMarker_ok h4 hm] at h
      exact ⟨h4, hm, by injection h with h1; injection h1 with _ h2; exact h2.symm⟩
    · rw [readStreamMarker_badsig h4 hm] at h; cases h
  · rw [readStreamMarker_short (by omega)] at h; cases h

/-! ### Ghost trace of the dispatch loop -/

theorem readMetadataLoop_toTr : ∀ (fuel : Nat) (m : Metadata) (s : List Nat)
    (m' : Metadata) (rest : List Nat),
    readMetadataLoop fuel m s = .ok (m', rest) →
    ∃ tr, readMetadataLoopTr fuel m s = .ok (m', rest, tr) := by
  intro fuel
  induction fuel with
  | zero =>
    intro m s m' rest h
    unfold readMetadataLoop at h
    cases h
  | succ fuel ih =>
    intro m s m' rest h
    unfold readMetadataLoop at h
    unfold readMetadataLoopTr
    cases hh : readBlockHeader s with
    | error e => rw [hh] at h; cases h
    | ok p =>
      obtain ⟨hd, s1⟩ := p
      rw [hh] at h
      dsimp only at h ⊢
      cases hdisp : dispatchBlock s1 hd
          { m with bytes := m.bytes + (blockHeader.length hd : Int) + 4 } with
      | error e => rw [hdisp] at h; cases h
      | ok q =>
        obtain ⟨m2, s2⟩ := q
        rw [hdisp] at h
        dsimp only at h ⊢
        by_cases hl : blockHeader.IsLast hd
        · rw [if_pos hl] at h ⊢
          injection h with h1
          injection h1 with hA hB
          subst hA; subst hB
          exact ⟨[(hd, s1.length - s2.length)], rfl⟩
        · rw [if_neg hl] at h ⊢
          obtain ⟨tr, htr⟩ := ih m2 s2 m' rest h
          rw [htr]
          exact ⟨(hd, s1.length - s2.length) :: tr, rfl⟩

/-- Accounting invariant of the loop, along the ghost trace: the byte
accumulator advances by `4 + declared payload length` per block, while the
source cursor advances by `4 + actually consumed payload bytes` per block. -/
theorem readMetadataLoopTr_inv : ∀ (fuel : Nat) (m : Metadata) (s : List Nat)
    (m' : Metadata) (rest : List Nat) (tr : List (Nat × Nat)),
    readMetadataLoopTr fuel m s = .ok (m', rest, tr) →
    m'.bytes = m.bytes + (tr.map (fun e => (blockHeader.length e.1 : Int) + 4)).sum ∧
    s.length = rest.length + (tr.map (fun e => e.2 + 4)).sum := by
  intro fuel
  induction fuel with
  | zero =>
    intro m s m' rest tr h
    unfold readMetadataLoopTr at h
    cases h
  | succ fuel ih =>
    intro m s m' rest tr h
    unfold readMetadataLoopTr at h
    cases hh : readBlockHeader s with
    | error e => rw [hh] at h; cases h
    | ok p =>
      obtain ⟨hd, s1⟩ := p
      rw [hh] at h
      dsimp only at h
      have hs1 : 4 ≤ s.length ∧ s1 = s.drop 4 := by
        have := readUintBE_inv (n := 4) hh
        exact ⟨this.1, this.2.2⟩
      cases hdisp : dispatchBlock s1 hd
          { m with bytes := m.bytes + (blockHeader.length hd : Int) + 4 } with
      | error e => rw [hdisp] at h; cases h
      | ok q =>
        obtain ⟨m2, s2⟩ := q
        rw [hdisp] at h
        dsimp only at h
        have hdi := dispatchBlock_inv hdisp
        have hs1len : s1.length = s.length - 4 := by rw [hs1.2]; simp
        by_cases hl : blockHeader.IsLast hd
        · rw [if_pos hl] at h
          injection h with h1
          injection h1 with hA h2
          injection h2 with hB hC
          subst hA; subst hB; subst hC
          constructor
          · simp only [List.map_cons, List.map_nil, List.sum_cons, List.sum_nil]
            rw [hdi.1]
            dsimp only
            ring
          · simp only [List.map_cons, List.map_nil, List.sum_cons, List.sum_nil]
            have h4 := hs1.1
            have hle := hdi.2
            omega
        · rw [if_neg hl] at h
          cases htr : readMetadataLoopTr fuel m2 s2 with
          | error e => rw [htr] at h; cases h
          | ok r =>
            obtain ⟨m3, r2⟩ := r
            obtain ⟨s3, tr'⟩ := r2
            rw [htr] at h
            dsimp only at h
            injection h with h1
            injection h1 with hA h2
            injection h2 with hB hC
            subst hA; subst hB; subst hC
            obtain ⟨ih1, ih2⟩ := ih _ _ _ _ _ htr
            constructor
            · simp only [List.map_cons, List.sum_cons]
              rw [ih1, hdi.1]
              dsimp only
              ring
            · simp only [List.map_cons, List.sum_cons]
              have h4 := hs1.1
              have hle := hdi.2
              omega

/-! ### Dispatch arms, loop step -/

theorem wrap64_eq {z : Int} (h1 : -(2 ^ 63) ≤ z) (h2 : z < 2 ^ 63) :
    wrap64 z = z := by
  unfold wrap64; omega

/-- A forward-compatible unknown type code (8..126) takes the default arm:
the block is skipped by a discard-read of exactly its declared payload
length, without error and without touching the metadata under construction. -/
theorem dispatch_unknown_skip {h : Nat} (m : Metadata) {payload : List Nat}
    (rest : List Nat) (h8 : 8 ≤ blockHeader.btype h)
    (h126 : blockHeader.btype h ≤ 126)
    (hlen : payload.length = blockHeader.length h) :
    dispatchBlock (payload ++ rest) h m = .ok (m, rest) := by
  unfold dispatchBlock
  split
  all_goals (rename_i heq; first
    | (exfalso; omega)
    | skip)
  have hp : readPaddingBlock (payload ++ rest) h = .ok ((), rest) := by
    unfold readPaddingBlock
    rw [show blockHeader.length h = payload.length from hlen.symm,
        readBytes_ok (by simp), List.take_left, List.drop_left]
  rw [hp]

/-- A padding block (type code 1) consumes exactly its declared payload
length and leaves the metadata untouched. -/
theorem dispatch_padding {h : Nat} (m : Metadata) {payload : List Nat}
    (rest : List Nat) (ht : blockHeader.btype h = 1)
    (hlen : payload.length = blockHeader.length h) :
    dispatchBlock (payload ++ rest) h m = .ok (m, rest) := by
  unfold dispatchBlock
  rw [ht]
  dsimp only
  have hp : readPaddingBlock (payload ++ rest) h = .ok ((), rest) := by
    unfold readPaddingBlock
    rw [show blockHeader.length h = payload.length from hlen.symm,
        readBytes_ok (by simp), List.take_left, List.drop_left]
  rw [hp]

/-- The reserved type code 127 fails immediately, whatever the remaining
source holds: no payload byte is ever requested. -/
theorem dispatch_invalid {h : Nat} (m : Metadata) (s : List Nat)
    (ht : blockHeader.btype h = 127) :
    dispatchBlock s h m = .error .invalidStream := by
  unfold dispatchBlock
  rw [ht]

/-- One unfolding of the dispatch loop. -/
theorem readMetadataLoop_step (fuel : Nat) (m : Metadata) (s : List Nat) :
    readMetadataLoop (fuel + 1) m s =
      match readBlockHeader s with
      | .error e => .error e
      | .ok (h, s1) =>
        match dispatchBlock s1 h
            { m with bytes := m.bytes + (blockHeader.length h : Int) + 4 } with
        | .error e => .error e
        | .ok (m2, s2) =>
            if blockHeader.IsLast h then .ok (m2, s2)
            else readMetadataLoop fuel m2 s2 := rfl

theorem readBlockHeader_append {b : List Nat} (X : List Nat)
    (hb : b.length = 4) : readBlockHeader (b ++ X) = .ok (beVal b, X) := by
  have h1 : (b ++ X).take 4 = b := by rw [← hb]; exact List.take_left b X
  have h2 : (b ++ X).drop 4 = X := by rw [← hb]; exact List.drop_left b X
  unfold readBlockHeader
  rw [readUint32_ok (by simp [hb]), h1, h2]

/-- Replacing a forward-compatible unknown type code (8..126) by the padding
type code 1 in a block's header does not change the decode at all, provided
the declared payload is fully present. -/
theorem loop_skip_eq (fuel : Nat) (m : Metadata) (last : Bool) (t L : Nat)
    (payload rest : List Nat) (h8 : 8 ≤ t) (h126 : t ≤ 126) (hL : L < 2 ^ 24)
    (hlen : payload.length = L) :
    readMetadataLoop (fuel + 1) m (mkHeader last t L ++ (payload ++ rest)) =
      readMetadataLoop (fuel + 1) m (mkHeader last 1 L ++ (payload ++ rest)) := by
  have ht : t < 128 := by omega
  have hbU := mkHeader_btype last t L ht hL
  have hlU := mkHeader_length last t L ht hL
  have hiU := mkHeader_IsLast last t L ht hL
  have hbP := mkHeader_btype last 1 L (by omega) hL
  have hlP := mkHeader_length last 1 L (by omega) hL
  have hiP := mkHeader_IsLast last 1 L (by omega) hL
  rw [readMetadataLoop_step, readMetadataLoop_step,
      readBlockHeader_append _ (by rfl), readBlockHeader_append _ (by rfl)]
  dsimp only
  rw [dispatch_unknown_skip _ rest (by rw [hbU]; omega) (by rw [hbU]; omega)
        (by rw [hlU]; exact hlen),
      dispatch_padding _ rest hbP (by rw [hlP]; exact hlen)]
  dsimp only
  rw [hlU, hlP, hiU, hiP]

/-- A header with the reserved type code 127 makes the loop fail at once. -/
theorem loop_invalid127 (fuel : Nat) (m : Metadata) (last : Bool) (L : Nat)
    (rest : List Nat) (hL : L < 2 ^ 24) :
    readMetadataLoop (fuel + 1) m (mkHeader last 127 L ++ rest) =
      .error .invalidStream := by
  rw [readMetadataLoop_step, readBlockHeader_append _ (by rfl)]
  dsimp only
  rw [dispatch_invalid _ _ (mkHeader_btype last 127 L (by omega) hL)]

theorem sum_len_cast (tr : List (Nat × Nat)) :
    (tr.map (fun e => (blockHeader.length e.1 : Int) + 4)).sum =
      ((tr.map (fun e => blockHeader.length e.1 + 4)).sum : Nat) := by
  induction tr with
  | nil => simp
  | cons a t ih =>
    simp only [List.map_cons, List.sum_cons, ih]
    push_cast
    ring

/-! ### Claim theorems -/

/-- C1: Go's `StreamInfo.Duration` computes
`TotalSamples * time.Second / SampleRate` (here: 16536 samples at 44100 Hz
give exactly 16536000000000/44100 = 374965986 truncated nanoseconds), but
when `SampleRate` is zero the expression performs an integer division by
zero - a Go runtime panic - instead of reporting an "unknown" duration.
The claim's second half is therefore right about the intent and wrong about
the code: this theorem evaluates the embedded code at the claim's two
inputs, exhibiting the fault at `sampleRate = 0`. -/
theorem C1_duration_eval :
    StreamInfo.Duration ⟨0, 0, 0, 0, 44100, 0, 0, 16536, []⟩ = .ok 374965986 ∧
    (374965986 : Int) = Int.tdiv ((16536 : Int) * 1000000000) 44100 ∧
    StreamInfo.Duration ⟨0, 0, 0, 0, 0, 0, 0, 16536, []⟩ =
      .error .divideByZero := by
  refine ⟨by decide, by decide, by decide⟩

/-- C3: the claim fails on the code. At the input
`"fLaC" ++ [0xE4, 0, 0, 0x0A] ++ [1,2,3,4,5]` (a last-flagged block of
unknown type code 100 declaring a 10-byte payload of which only 5 bytes
exist), the discard-read fails with the unexpected-EOF error, but the
`default` arm of `readMetadata` (flac.go line 101) discards that error, so
`ReadMetadata` returns a metadata aggregate instead of propagating the
error. -/
theorem C3_swallowed_error_eval :
    ReadMetadata (fLaC ++ [0xE4, 0, 0, 0x0A] ++ [1, 2, 3, 4, 5]) =
      .ok (⟨18, none, none⟩, []) := by
  decide

/-- C2 counterexample: the claim's formula
`(totalFileSizeBytes - totalMetadataBytes) * 8 / durationSeconds` in
kilobits per second predicts 64 for a metadata aggregate with 42 metadata
bytes, a 1-second stream (1000 samples at 1000 Hz) and file size 8042
(`8000 * 8 bits / 1 s = 64000 bit/s = 64 kbit/s`), but the code returns 8:
it divides the byte count by the duration in milliseconds, yielding
kilobytes per second, a factor 8 short. Moreover, with duration 0
(totalSamples = 0, an "unknown" duration), the code divides by a zero
millisecond count - a runtime fault - instead of returning -1. -/
theorem C2_bitrate_counterexample :
    Metadata.Bitrate ⟨42, some ⟨0, 0, 0, 0, 1000, 0, 0, 1000, []⟩, none⟩ 8042 ≠
      .ok 64 ∧
    Int.tdiv (Int.tdiv (((8042 : Int) - 42) * 8) 1) 1000 = 64 ∧
    Metadata.Bitrate ⟨42, some ⟨0, 0, 0, 0, 1000, 0, 0, 1000, []⟩, none⟩ 8042 =
      .ok 8 ∧
    Metadata.Bitrate ⟨42, some ⟨0, 0, 0, 0, 44100, 0, 0, 0, []⟩, none⟩ 8042 =
      .error .divideByZero := by
  refine ⟨by decide, by decide, by decide, by decide⟩

/-- C10: `ReadMetadata` succeeds on a well-formed stream holding a single
(last) padding block and no structural block; the aggregate's `StreamInfo`
accessor yields `none` (a nil pointer in Go), and on any aggregate whose
`info` is nil, `Length` and `Bitrate` dereference that nil pointer
unconditionally (a runtime fault, `.error .nilDeref`) rather than returning
an "unknown" sentinel. -/
theorem C10_nil_streaminfo :
    ReadMetadata (fLaC ++ [0x81, 0, 0, 0]) = .ok (⟨8, none, none⟩, []) ∧
    Metadata.StreamInfo ⟨8, none, none⟩ = none ∧
    (∀ (m : Metadata) (filesize : Int), m.info = none →
      Metadata.Length m = .error .nilDeref ∧
      Metadata.Bitrate m filesize = .error .nilDeref) := by
  refine ⟨by decide, rfl, ?_⟩
  intro m filesize hnone
  constructor
  · unfold Metadata.Length
    rw [hnone]
  · unfold Metadata.Bitrate Metadata.Length
    rw [hnone]

theorem C10_nil_streaminfo_witness :
    (⟨8, none, none⟩ : Metadata).info = none ∧
    Metadata.Length ⟨8, none, none⟩ = .error .nilDeref ∧
    Metadata.Bitrate ⟨8, none, none⟩ 1000000 = .error .nilDeref := by
  refine ⟨rfl, ?_, ?_⟩
  · exact (C10_nil_streaminfo.2.2 ⟨8, none, none⟩ 1000000 rfl).1
  · exact (C10_nil_streaminfo.2.2 ⟨8, none, none⟩ 1000000 rfl).2

/-- C8: stream-marker validation succeeds exactly on the 4-byte signature
`"fLaC"` (after which decoding proceeds to the block sequence); a source
shorter than 4 bytes fails with the unexpected-EOF error, and any other 4
leading bytes fail with the stream-invalid error - in each case before any
block is read, since the whole decode is the marker check followed by the
block loop. -/
theorem C8_stream_marker (s : List Nat) :
    (s.length < 4 → ReadMetadata s = .error .unexpectedEOF) ∧
    (4 ≤ s.length → s.take 4 ≠ fLaC → ReadMetadata s = .error .invalidStream) ∧
    (4 ≤ s.length → s.take 4 = fLaC → ReadMetadata s = readMetadata (s.drop 4)) := by
  refine ⟨?_, ?_, ?_⟩
  · intro h4
    unfold ReadMetadata
    rw [readStreamMarker_short h4]
  · intro h4 hm
    unfold ReadMetadata
    rw [readStreamMarker_badsig h4 hm]
  · intro h4 hm
    unfold ReadMetadata
    rw [readStreamMarker_ok h4 hm]

theorem C8_stream_marker_witness :
    ReadMetadata [0x46, 0x4C, 0x41, 0x43] = .error .invalidStream ∧
    ReadMetadata [0x66, 0x4C, 0x61] = .error .unexpectedEOF :=
  ⟨(C8_stream_marker [0x46, 0x4C, 0x41, 0x43]).2.1 (by decide) (by decide),
   (C8_stream_marker [0x66, 0x4C, 0x61]).1 (by decide)⟩

/-- C9: the structural-block decoder reads a fixed 4+6+8+16 = 34 bytes,
entirely ignoring the block header passed to it (the result is literally
independent of the header argument), so whenever at least 34 bytes remain it
succeeds consuming exactly 34. Consequently, on the concrete stream whose
structural block header declares payloadLength 100, the decode succeeds
reporting totalMetadataBytes 4 + (4 + 100) = 108 while the source cursor
actually sits at byte offset 42 (one trailing byte of the 43-byte input is
left over): the reported offset and the consumed offset desynchronize. -/
theorem C9_streaminfo_fixed_34 (s : List Nat) (h h' : Nat)
    (hlen : 34 ≤ s.length) :
    readStreamInfoBlock s h = readStreamInfoBlock s h' ∧
    (∃ si, readStreamInfoBlock s h = .ok (si, s.drop 34)) ∧
    (ReadMetadata (fLaC ++ [0x80, 0, 0, 100] ++ List.replicate 34 0 ++ [7])).map
        (fun p => (p.1.bytes, p.2)) = .ok ((108 : Int), [7]) ∧
    (fLaC ++ [0x80, 0, 0, 100] ++ List.replicate 34 0 ++ [7]).length = 43 ∧
    (108 : Int) ≠ 43 - 1 := by
  refine ⟨rfl, ⟨_, readStreamInfoBlock_eq hlen h⟩, by decide, by decide, by decide⟩

theorem C9_streaminfo_fixed_34_witness :
    34 ≤ (List.replicate 34 0).length ∧
    readStreamInfoBlock (List.replicate 34 0) 5 =
      readStreamInfoBlock (List.replicate 34 0) 99 :=
  ⟨by decide, (C9_streaminfo_fixed_34 (List.replicate 34 0) 5 99 (by decide)).1⟩

/-- C7: once a header whose continuation ("last block") flag is set has been
dispatched, the loop returns immediately with whatever bytes remain
untouched - no further reads occur, so trailing bytes are never consumed;
and while the flag is unset the loop continues with the next header, so it
terminates exactly upon the flag. -/
theorem C7_stop_on_last (fuel : Nat) (m m2 : Metadata) (s s1 s2 : List Nat)
    (h : Nat)
    (hh : readBlockHeader s = .ok (h, s1))
    (hd : dispatchBlock s1 h
        { m with bytes := m.bytes + (blockHeader.length h : Int) + 4 } =
      .ok (m2, s2)) :
    (blockHeader.IsLast h = true →
      readMetadataLoop (fuel + 1) m s = .ok (m2, s2)) ∧
    (blockHeader.IsLast h = false →
      readMetadataLoop (fuel + 1) m s = readMetadataLoop fuel m2 s2) := by
  rw [readMetadataLoop_step, hh]
  dsimp only
  rw [hd]
  dsimp only
  constructor <;> intro hl <;> rw [hl] <;> simp

theorem C7_stop_on_last_witness :
    readBlockHeader [0x81, 0, 0, 0, 9, 9] = .ok (0x81000000, [9, 9]) ∧
    readMetadataLoop 1 ⟨4, none, none⟩ [0x81, 0, 0, 0, 9, 9] =
      .ok (⟨8, none, none⟩, [9, 9]) :=
  ⟨by decide,
   (C7_stop_on_last 0 ⟨4, none, none⟩ ⟨8, none, none⟩ [0x81, 0, 0, 0, 9, 9]
      [9, 9] [9, 9] 0x81000000 (by decide) (by decide)).1 (by decide)⟩

/-- C4: a block whose header carries a forward-compatible unknown type code
8..126 is skipped exactly like padding: its dispatch consumes exactly the
declared payloadLength bytes (when present), succeeds, leaves the metadata
untouched, and the whole decode of the stream equals the decode of the same
stream with the type code replaced by padding (type 1) - subsequent blocks
are unaffected. A header carrying the reserved type code 127 instead fails
the dispatch, and the whole loop, immediately with the stream-invalid
error, regardless of the declared payload length and even when no payload
byte is present at all (so the payload is never consumed). -/
theorem C4_unknown_skip_invalid_127 :
    (∀ (h : Nat) (m : Metadata) (payload rest : List Nat),
      8 ≤ blockHeader.btype h → blockHeader.btype h ≤ 126 →
      payload.length = blockHeader.length h →
      dispatchBlock (payload ++ rest) h m = .ok (m, rest)) ∧
    (∀ (fuel : Nat) (m : Metadata) (last : Bool) (t L : Nat)
        (payload rest : List Nat),
      8 ≤ t → t ≤ 126 → L < 2 ^ 24 → payload.length = L →
      readMetadataLoop (fuel + 1) m (mkHeader last t L ++ (payload ++ rest)) =
        readMetadataLoop (fuel + 1) m (mkHeader last 1 L ++ (payload ++ rest))) ∧
    (∀ (h : Nat) (m : Metadata) (s : List Nat),
      blockHeader.btype h = 127 →
      dispatchBlock s h m = .error .invalidStream) ∧
    (∀ (fuel : Nat) (m : Metadata) (last : Bool) (L : Nat) (rest : List Nat),
      L < 2 ^ 24 →
      readMetadataLoop (fuel + 1) m (mkHeader last 127 L ++ rest) =
        .error .invalidStream) :=
  ⟨fun _ m _ rest h8 h126 hlen => dispatch_unknown_skip m rest h8 h126 hlen,
   fun fuel m last t L payload rest h8 h126 hL hlen =>
     loop_skip_eq fuel m last t L payload rest h8 h126 hL hlen,
   fun _ m s ht => dispatch_invalid m s ht,
   fun fuel m last L rest hL => loop_invalid127 fuel m last L rest hL⟩

theorem C4_unknown_skip_invalid_127_witness :
    dispatchBlock ([5, 6] ++ [9]) (beVal (mkHeader true 100 2)) ⟨4, none, none⟩ =
      .ok (⟨4, none, none⟩, [9]) ∧
    readMetadataLoop 1 ⟨4, none, none⟩ (mkHeader true 127 3 ++ [1, 2, 3]) =
      .error .invalidStream :=
  ⟨C4_unknown_skip_invalid_127.1 (beVal (mkHeader true 100 2)) ⟨4, none, none⟩
      [5, 6] [9] (by decide) (by decide) (by decide),
   C4_unknown_skip_invalid_127.2.2.2 0 ⟨4, none, none⟩ true 3 [1, 2, 3]
      (by decide)⟩

/-- C5: on any source holding a 34-byte structural payload (of byte values),
the structural-block decoder succeeds, consumes exactly 34 bytes, and
extracts the fields by the fixed bit layout: with w1 the first 32-bit word,
w2 the following 48-bit word, w3 the following 64-bit word (all
big-endian), minBlockSize = bits[31:16] of w1, maxBlockSize = bits[15:0] of
w1, minFrameSize = bits[47:24] of w2, maxFrameSize = bits[23:0] of w2,
sampleRate = bits[63:44] of w3, numChannels = the raw 3-bit field
bits[43:41] of w3 (stored without any +1 bias), bitsPerSample = the raw
5-bit field bits[40:36] of w3, totalSamples = bits[35:0] of w3, and the
trailing 16 bytes are copied verbatim as the checksum. -/
theorem C5_streaminfo_layout (s : List Nat) (h : Nat) (hlen : 34 ≤ s.length)
    (hb : isBytes s) :
    readStreamInfoBlock s h =
      .ok ({ MinBlockSize := beVal (s.take 4) / 2 ^ 16 % 2 ^ 16
             MaxBlockSize := beVal (s.take 4) % 2 ^ 16
             MinFrameSize := beVal ((s.drop 4).take 6) / 2 ^ 24 % 2 ^ 24
             MaxFrameSize := beVal ((s.drop 4).take 6) % 2 ^ 24
             SampleRate := beVal ((s.drop 10).take 8) / 2 ^ 44 % 2 ^ 20
             NumChannels := beVal ((s.drop 10).take 8) / 2 ^ 41 % 2 ^ 3
             BitsPerSample := beVal ((s.drop 10).take 8) / 2 ^ 36 % 2 ^ 5
             TotalSamples := beVal ((s.drop 10).take 8) % 2 ^ 36
             MD5Sum := (s.drop 18).take 16 }, s.drop 34) := by
  have hb4 : isBytes (s.take 4) := fun x hx => hb x (List.take_subset _ _ hx)
  have hb6 : isBytes ((s.drop 4).take 6) := fun x hx =>
    hb x (List.drop_subset _ _ (List.take_subset _ _ hx))
  have hb8 : isBytes ((s.drop 10).take 8) := fun x hx =>
    hb x (List.drop_subset _ _ (List.take_subset _ _ hx))
  have hw1 : beVal (s.take 4) < 2 ^ 32 := by
    have hlt := beVal_lt hb4
    have hl : (s.take 4).length = 4 := by simp; omega
    rw [hl] at hlt
    norm_num at hlt ⊢
    exact hlt
  have hw2 : beVal ((s.drop 4).take 6) < 2 ^ 48 := by
    have hlt := beVal_lt hb6
    have hl : ((s.drop 4).take 6).length = 6 := by simp; omega
    rw [hl] at hlt
    norm_num at hlt ⊢
    exact hlt
  have hw3 : beVal ((s.drop 10).take 8) < 2 ^ 64 := by
    have hlt := beVal_lt hb8
    have hl : ((s.drop 10).take 8).length = 8 := by simp; omega
    rw [hl] at hlt
    norm_num at hlt ⊢
    exact hlt
  rw [readStreamInfoBlock_eq hlen]
  simp only [Except.ok.injEq, Prod.mk.injEq, StreamInfo.mk.injEq]
  refine ⟨⟨?_, ?_, ?_, ?_, ?_, ?_, ?_, ?_, trivial⟩, trivial⟩
  · rw [shiftr_div, land_mask _ 16 _ (by norm_num)]
  · rw [land_mask _ 16 _ (by norm_num)]
  · rw [shiftr_div, land_mask _ 32 _ (by norm_num)]
    omega
  · rw [land_mask _ 24 _ (by norm_num)]
  · rw [shiftr_div, land_mask _ 32 _ (by norm_num)]
    omega
  · rw [shiftr_div, land_mask _ 3 _ (by norm_num)]
  · rw [shiftr_div, land_mask _ 5 _ (by norm_num)]
  · rw [land_mask _ 36 _ (by norm_num)]

theorem C5_streaminfo_layout_witness :
    34 ≤ (List.replicate 34 7).length ∧ isBytes (List.replicate 34 7) ∧
    readStreamInfoBlock (List.replicate 34 7) 0 =
      .ok ({ MinBlockSize := beVal ((List.replicate 34 7).take 4) / 2 ^ 16 % 2 ^ 16
             MaxBlockSize := beVal ((List.replicate 34 7).take 4) % 2 ^ 16
             MinFrameSize :=
               beVal (((List.replicate 34 7).drop 4).take 6) / 2 ^ 24 % 2 ^ 24
             MaxFrameSize := beVal (((List.replicate 34 7).drop 4).take 6) % 2 ^ 24
             SampleRate :=
               beVal (((List.replicate 34 7).drop 10).take 8) / 2 ^ 44 % 2 ^ 20
             NumChannels :=
               beVal (((List.replicate 34 7).drop 10).take 8) / 2 ^ 41 % 2 ^ 3
             BitsPerSample :=
               beVal (((List.replicate 34 7).drop 10).take 8) / 2 ^ 36 % 2 ^ 5
             TotalSamples := beVal (((List.replicate 34 7).drop 10).take 8) % 2 ^ 36
             MD5Sum := ((List.replicate 34 7).drop 18).take 16 },
        (List.replicate 34 7).drop 34) :=
  ⟨by decide, by decide,
   C5_streaminfo_layout (List.replicate 34 7) 0 (by decide) (by decide)⟩

/-- C6 (amended): on every input on which `ReadMetadata` succeeds there is a
trace of the processed blocks, pairing each block's declared payloadLength
with the payload bytes it actually consumed, such that totalMetadataBytes
equals 4 (signature) plus the sum over the blocks of (4 + declared
payloadLength), while the byte offset at which audio-frame data begins
equals 4 plus the sum of (4 + actually consumed payload bytes); the two
agree - totalMetadataBytes = the audio-data offset - exactly under the
side condition that every block consumed precisely its declared
payloadLength (which a structural block declaring other than 34, or a
swallowed short discard-read, violates). -/
theorem C6_total_metadata_bytes (s : List Nat) (m : Metadata) (rest : List Nat)
    (h : ReadMetadata s = .ok (m, rest)) :
    ∃ tr : List (Nat × Nat),
      m.bytes = 4 + (tr.map (fun e => (blockHeader.length e.1 : Int) + 4)).sum ∧
      s.length = rest.length + 4 + (tr.map (fun e => e.2 + 4)).sum ∧
      ((∀ e ∈ tr, e.2 = blockHeader.length e.1) →
        m.bytes = (s.length : Int) - rest.length) := by
  unfold ReadMetadata at h
  cases hmk : readStreamMarker s with
  | error e => rw [hmk] at h; cases h
  | ok p =>
    obtain ⟨u, rest0⟩ := p
    cases u
    rw [hmk] at h
    dsimp only at h
    obtain ⟨h4, hsig, hrest0⟩ := readStreamMarker_inv hmk
    unfold readMetadata at h
    obtain ⟨tr, htr⟩ := readMetadataLoop_toTr _ _ _ _ _ h
    obtain ⟨hbytes, hlens⟩ := readMetadataLoopTr_inv _ _ _ _ _ _ htr
    subst hrest0
    simp only [List.length_drop] at hlens
    refine ⟨tr, hbytes, by omega, ?_⟩
    intro hpt
    have hmap : tr.map (fun e => e.2 + 4) =
        tr.map (fun e => blockHeader.length e.1 + 4) :=
      List.map_congr_left (fun e he => by rw [hpt e he])
    rw [hmap] at hlens
    rw [sum_len_cast] at hbytes
    have hb2 : m.bytes =
        4 + (((tr.map (fun e => blockHeader.length e.1 + 4)).sum : Nat) : Int) :=
      hbytes
    omega

/-- C6 counterexample: the claim as stated is false. On the 43-byte input
`"fLaC" ++ [0x80, 0, 0, 35] ++ (34 zero bytes) ++ [153]`, whose single
(last) structural block header declares payloadLength 35 while the decoder
consumes exactly 34 payload bytes, the decode succeeds with
totalMetadataBytes = 4 + (4 + 35) = 43, yet audio-frame data begins at byte
offset 42 (the byte 153 is left unconsumed of the 43-byte input):
4 + Σ(4 + payloadLength) does not match the byte offset where audio data
begins. -/
theorem C6_total_metadata_bytes_counterexample :
    (ReadMetadata (fLaC ++ [0x80, 0, 0, 35] ++ List.replicate 34 0 ++ [153])).map
        (fun p => (p.1.bytes, p.2)) = .ok ((43 : Int), [153]) ∧
    (fLaC ++ [0x80, 0, 0, 35] ++ List.replicate 34 0 ++ [153]).length = 43 ∧
    (43 : Int) ≠ 43 - 1 := by
  refine ⟨by decide, by decide, by decide⟩

theorem C6_total_metadata_bytes_witness :
    ReadMetadata (fLaC ++ [0x81, 0, 0, 0]) = .ok (⟨8, none, none⟩, []) ∧
    (∃ tr : List (Nat × Nat),
      (⟨8, none, none⟩ : Metadata).bytes =
        4 + (tr.map (fun e => (blockHeader.length e.1 : Int) + 4)).sum ∧
      (fLaC ++ [0x81, 0, 0, 0]).length =
        ([] : List Nat).length + 4 + (tr.map (fun e => e.2 + 4)).sum ∧
      ((∀ e ∈ tr, e.2 = blockHeader.length e.1) →
        (⟨8, none, none⟩ : Metadata).bytes =
          ((fLaC ++ [0x81, 0, 0, 0]).length : Int) - ([] : List Nat).length)) :=
  ⟨by decide,
   C6_total_metadata_bytes (fLaC ++ [0x81, 0, 0, 0]) ⟨8, none, none⟩ []
     (by decide)⟩

/-- C2 (amended): within `int64` range (no wrap-around), `Bitrate(filesize)`
divides `z = filesize - totalMetadataBytes` (a byte count) by the stream
duration expressed in whole milliseconds, i.e. it yields kilobytes per
second - a factor 8 below the claimed kilobits per second - truncated
toward zero, and returns -1 exactly when that quotient is non-positive;
when the millisecond count is zero (duration unknown or under 1 ms) it
raises a division-by-zero fault instead of returning -1. -/
theorem C2_bitrate_amended (m : Metadata) (si : StreamInfo) (filesize : Int)
    (hinfo : m.info = some si) (hsr : 0 < si.SampleRate)
    (hts : (si.TotalSamples : Int) * 1000000000 < 2 ^ 63)
    (hms : Int.tdiv ((si.TotalSamples : Int) * 1000000000)
        (si.SampleRate : Int) * 1000 < 2 ^ 63)
    (hz1 : -(2 ^ 63) ≤ filesize - m.bytes) (hz2 : filesize - m.bytes < 2 ^ 63) :
    (Int.tdiv (Int.tdiv ((si.TotalSamples : Int) * 1000000000)
          (si.SampleRate : Int) * 1000) 1000000000 = 0 →
      Metadata.Bitrate m filesize = .error .divideByZero) ∧
    (Int.tdiv (Int.tdiv ((si.TotalSamples : Int) * 1000000000)
          (si.SampleRate : Int) * 1000) 1000000000 ≠ 0 →
      Metadata.Bitrate m filesize =
        if Int.tdiv (filesize - m.bytes)
            (Int.tdiv (Int.tdiv ((si.TotalSamples : Int) * 1000000000)
              (si.SampleRate : Int) * 1000) 1000000000) ≤ 0
        then .ok (-1)
        else .ok (Int.tdiv (filesize - m.bytes)
            (Int.tdiv (Int.tdiv ((si.TotalSamples : Int) * 1000000000)
              (si.SampleRate : Int) * 1000) 1000000000))) := by
  have hts0 : (0 : Int) ≤ (si.TotalSamples : Int) := Int.natCast_nonneg _
  have htsb : (si.TotalSamples : Int) < 2 ^ 63 := by
    have hstep : (si.TotalSamples : Int) * 1 ≤ (si.TotalSamples : Int) * 1000000000 :=
      mul_le_mul_of_nonneg_left (by norm_num) hts0
    omega
  have hw1 : wrap64 (si.TotalSamples : Int) = (si.TotalSamples : Int) :=
    wrap64_eq (by omega) htsb
  have hprod0 : (0 : Int) ≤ (si.TotalSamples : Int) * 1000000000 :=
    mul_nonneg hts0 (by norm_num)
  have hw2 : wrap64 ((si.TotalSamples : Int) * 1000000000) =
      (si.TotalSamples : Int) * 1000000000 :=
    wrap64_eq (by omega) hts
  have hd0 : (0 : Int) ≤ Int.tdiv ((si.TotalSamples : Int) * 1000000000)
      (si.SampleRate : Int) :=
    Int.tdiv_nonneg hprod0 (Int.natCast_nonneg _)
  have hd1000 : (0 : Int) ≤ Int.tdiv ((si.TotalSamples : Int) * 1000000000)
      (si.SampleRate : Int) * 1000 :=
    mul_nonneg hd0 (by norm_num)
  have hw3 : wrap64 (Int.tdiv ((si.TotalSamples : Int) * 1000000000)
        (si.SampleRate : Int) * 1000) =
      Int.tdiv ((si.TotalSamples : Int) * 1000000000)
        (si.SampleRate : Int) * 1000 :=
    wrap64_eq (by omega) hms
  have hwz : wrap64 (filesize - m.bytes) = filesize - m.bytes :=
    wrap64_eq hz1 hz2
  unfold Metadata.Bitrate Metadata.Length
  rw [hinfo]
  dsimp only
  unfold StreamInfo.Duration
  rw [if_neg (by omega), hw1, hw2]
  dsimp only
  rw [hw3, hwz]
  constructor
  · intro h0
    rw [if_pos h0]
  · intro h0
    rw [if_neg h0]

theorem C2_bitrate_amended_witness :
    (⟨42, some ⟨0, 0, 0, 0, 1000, 0, 0, 1000, []⟩, none⟩ : Metadata).info =
      some ⟨0, 0, 0, 0, 1000, 0, 0, 1000, []⟩ ∧
    Metadata.Bitrate ⟨42, some ⟨0, 0, 0, 0, 1000, 0, 0, 1000, []⟩, none⟩ 8042 =
      .ok 8 := by
  refine ⟨rfl, ?_⟩
  have h := (C2_bitrate_amended
      ⟨42, some ⟨0, 0, 0, 0, 1000, 0, 0, 1000, []⟩, none⟩
      ⟨0, 0, 0, 0, 1000, 0, 0, 1000, []⟩ 8042 rfl (by decide) (by decide)
      (by decide) (by decide) (by decide)).2 (by decide)
  rw [h]
  decide
